import Mathlib

/-!
Shallow embedding of the finn.no job scraper (`src/main.ts`).

Strings are modelled as `List Char`; the JavaScript regexes used by the
scraper are embedded as executable backtracking matchers specialised to the
concrete patterns of the source.  All definitions are translated from the
source file; the page structure visible to the handlers (selector results,
list items, body text) is modelled as explicit structures, matching the role
of the HTML query engine as an external collaborator.
-/

namespace FinnScraper

/-! ## Character classes (JS regex classes, ASCII as in the source patterns) -/

/-- JS `[0-9]`. -/
def isAsciiDigitB (c : Char) : Bool := '0' ≤ c && c ≤ '9'

/-- JS `[a-zA-Z]`. -/
def isAsciiAlphaB (c : Char) : Bool := ('a' ≤ c && c ≤ 'z') || ('A' ≤ c && c ≤ 'Z')

/-- JS `[a-zA-Z0-9]` (used in the boundary groups of the email regexes). -/
def isAlnumB (c : Char) : Bool := isAsciiDigitB c || isAsciiAlphaB c

/-- The whitespace characters matched by JS `\s` (ASCII part plus NBSP). -/
def wsChars : List Char := [' ', '\t', '\n', '\r', '\x0b', '\x0c', '\xa0']

def isJsWsB (c : Char) : Bool := wsChars.contains c

/-- JS `\w` = `[A-Za-z0-9_]`. -/
def wordB (c : Char) : Bool := isAlnumB c || c == '_'

/-- The class `[\w.+-]` of the local part of the email patterns. -/
def localB (c : Char) : Bool := wordB c || c == '.' || c == '+' || c == '-'

/-- The class `[\w-]` of the domain part of the email patterns. -/
def domB (c : Char) : Bool := wordB c || c == '-'

/-- The class `[\w.-]` of the generic TLD tail of the email patterns. -/
def tailB (c : Char) : Bool := wordB c || c == '.' || c == '-'

/-- ASCII lower-casing, as applied by the `i` regex flag and
`String.prototype.toLowerCase` on the ASCII strings involved. -/
def lowerAscii : Char → Char
  | 'A' => 'a' | 'B' => 'b' | 'C' => 'c' | 'D' => 'd' | 'E' => 'e' | 'F' => 'f'
  | 'G' => 'g' | 'H' => 'h' | 'I' => 'i' | 'J' => 'j' | 'K' => 'k' | 'L' => 'l'
  | 'M' => 'm' | 'N' => 'n' | 'O' => 'o' | 'P' => 'p' | 'Q' => 'q' | 'R' => 'r'
  | 'S' => 's' | 'T' => 't' | 'U' => 'u' | 'V' => 'v' | 'W' => 'w' | 'X' => 'x'
  | 'Y' => 'y' | 'Z' => 'z'
  | c => c

/-! ## Generic string operations (JS `String.prototype` methods) -/

/-- `pat` is a literal prefix of `s` (case sensitive). -/
def isPrefixL : List Char → List Char → Bool
  | [], _ => true
  | _ :: _, [] => false
  | p :: ps, c :: cs => p == c && isPrefixL ps cs

/-- `pat` is a case-insensitive prefix of `s`; `pat` is stored lower-case. -/
def ciPrefixL : List Char → List Char → Bool
  | [], _ => true
  | _ :: _, [] => false
  | p :: ps, c :: cs => p == lowerAscii c && ciPrefixL ps cs

/-- JS `String.prototype.includes` (substring test). -/
def containsL (hay pat : List Char) : Bool :=
  match hay with
  | [] => pat.isEmpty
  | _ :: t => isPrefixL pat hay || containsL t pat

/-- JS `replace` with a string pattern: replace the first occurrence only. -/
def replaceFirstL (pat rep : List Char) : List Char → List Char
  | [] => []
  | c :: cs =>
    if pat ≠ [] && isPrefixL pat (c :: cs) then rep ++ (c :: cs).drop pat.length
    else c :: replaceFirstL pat rep cs

/-- JS `replace` with a global string/char-sequence pattern: replace all
non-overlapping occurrences, scanning left to right.  The scan consumes at
least one character per step, so the string's length serves as fuel (keeping
the recursion structural). -/
def replaceAllF (pat rep : List Char) : Nat → List Char → List Char
  | 0, s => s
  | _ + 1, [] => []
  | fuel + 1, c :: cs =>
    if pat ≠ [] && isPrefixL pat (c :: cs) then
      rep ++ replaceAllF pat rep fuel (cs.drop (pat.length - 1))
    else c :: replaceAllF pat rep fuel cs

def replaceAllL (pat rep s : List Char) : List Char :=
  replaceAllF pat rep s.length s

/-- JS global case-insensitive alternation replace (e.g. `/A:|B:|C:/gi`): at
each position the alternatives are tried in order; on a match the replacement
is emitted and the scan resumes after the matched text. Patterns are stored
lower-case. -/
def replaceAltsCIF (pats : List (List Char)) (rep : List Char) : Nat → List Char → List Char
  | 0, s => s
  | _ + 1, [] => []
  | fuel + 1, c :: cs =>
    match pats.find? (fun p => !p.isEmpty && ciPrefixL p (c :: cs)) with
    | some p => rep ++ replaceAltsCIF pats rep fuel (cs.drop (p.length - 1))
    | none => c :: replaceAltsCIF pats rep fuel cs

def replaceAltsCI (pats : List (List Char)) (rep s : List Char) : List Char :=
  replaceAltsCIF pats rep s.length s

/-- JS `String.prototype.trim` (both ends). -/
def trimL (s : List Char) : List Char :=
  ((s.dropWhile isJsWsB).reverse.dropWhile isJsWsB).reverse

/-- JS `replace(/\s+/g, ' ')`: collapse every whitespace run to one space. -/
def collapseWsF : Nat → List Char → List Char
  | 0, s => s
  | _ + 1, [] => []
  | fuel + 1, c :: cs =>
    if isJsWsB c then ' ' :: collapseWsF fuel (cs.dropWhile isJsWsB)
    else c :: collapseWsF fuel cs

def collapseWsL (s : List Char) : List Char := collapseWsF s.length s

/-- JS `indexOf(pat, start)`: index of the first occurrence of `pat` at
position `≥ start`, if any. -/
def indexOfAuxL (hay pat : List Char) (i : Nat) : Option Nat :=
  match hay with
  | [] => if pat.isEmpty then some i else none
  | _ :: t => if isPrefixL pat hay then some i else indexOfAuxL t pat (i + 1)

def indexOfFromL (hay pat : List Char) (start : Nat) : Option Nat :=
  (indexOfAuxL (hay.drop start) pat 0).map (· + start)

/-- JS `lastIndexOf('.')`: index of the last occurrence of a character. -/
def lastIndexOfCharL (s : List Char) (c : Char) : Option Nat :=
  match s.reverse.findIdx? (· == c) with
  | some j => some (s.length - 1 - j)
  | none => none

/-- First-occurrence-preserving deduplication (JS `[...new Set(xs)]`). -/
def dedupKeepFirstAux {α : Type} [DecidableEq α] : List α → List α → List α
  | [], _ => []
  | x :: xs, seen => if seen.contains x then dedupKeepFirstAux xs seen else x :: dedupKeepFirstAux xs (x :: seen)

def dedupKeepFirst {α : Type} [DecidableEq α] (l : List α) : List α :=
  dedupKeepFirstAux l []

/-! ## The email machinery (`cleanEmail` and the page-level discovery) -/

/-- The fixed allowlist of TLDs (`standardTLDs` in the source). -/
def tldStrs : List String :=
  ["no", "com", "org", "net", "info", "se", "dk", "io", "co", "uk", "us", "eu",
   "de", "fr", "it", "es", "pl", "ru", "nl", "be", "me", "biz", "group"]

def tldsL : List (List Char) := tldStrs.map String.data

/-- The boundary `($|[^a-zA-Z0-9])` after the TLD. -/
def boundaryOkL : List Char → Bool
  | [] => true
  | c :: _ => !isAlnumB c

/-- The TLD alternation `(no|com|…|group)` of `extractStandardEmail`, tried in
order with the trailing boundary; returns the matched (original-case) TLD. -/
def tldTryL (r : List Char) : Option (List Char) :=
  tldsL.findSome? fun t =>
    if ciPrefixL t r && boundaryOkL (r.drop t.length) then some (r.take t.length)
    else none

/-- Group 2 of the `extractStandardEmail` regex
`([\w.+-]+@[\w-]+\.(no|com|…))` matched at exactly this position (the greedy
`+` runs are deterministic because `@` and `.` are outside their classes). -/
def matchEmailAtL (s : List Char) : Option (List Char) :=
  let loc := s.takeWhile localB
  if loc.isEmpty then none else
  match s.dropWhile localB with
  | '@' :: r2 =>
    let dom := r2.takeWhile domB
    if dom.isEmpty then none else
    (match r2.dropWhile domB with
     | '.' :: r4 =>
       match tldTryL r4 with
       | some t => some (loc ++ '@' :: dom ++ '.' :: t)
       | none => none
     | _ => none)
  | _ => none

/-- `input.match(emailRegex)` of `extractStandardEmail`: leftmost match of
`(^|[^a-zA-Z0-9])([\w.+-]+@[\w-]+\.(no|com|…))($|[^a-zA-Z0-9])`, returning
capture group 2.  `bOK` records whether the pre-match boundary (`^` or a
non-alphanumeric character) holds at the current position. -/
def extractStdGoL : List Char → Bool → Option (List Char)
  | [], _ => none
  | c :: cs, bOK =>
    match (if bOK then matchEmailAtL (c :: cs) else none) with
    | some e => some e
    | none => extractStdGoL cs (!isAlnumB c)

/-- `extractStandardEmail` (source lines 373-384). -/
def extractStandardEmailL (s : List Char) : Option (List Char) :=
  extractStdGoL s true

/-- A match of the permissive pattern `[\w.+-]+@[\w-]+\.[\w.-]+` at exactly
this position. -/
def matchPotAtL (s : List Char) : Option (List Char) :=
  let loc := s.takeWhile localB
  if loc.isEmpty then none else
  match s.dropWhile localB with
  | '@' :: r2 =>
    let dom := r2.takeWhile domB
    if dom.isEmpty then none else
    (match r2.dropWhile domB with
     | '.' :: r4 =>
       let tl := r4.takeWhile tailB
       if tl.isEmpty then none else some (loc ++ '@' :: dom ++ '.' :: tl)
     | _ => none)
  | _ => none

/-- Leftmost match of `[\w.+-]+@[\w-]+\.[\w.-]+` (the `potentialEmailMatch` of
`attemptEmailRescue`). -/
def firstPotL : List Char → Option (List Char)
  | [] => none
  | c :: cs =>
    match matchPotAtL (c :: cs) with
    | some m => some m
    | none => firstPotL cs

/-- The anchored validation `/^[\w.+-]+@[\w-]+\.\w+$/.test`. -/
def anchoredTestL (s : List Char) : Bool :=
  let loc := s.takeWhile localB
  !loc.isEmpty &&
    match s.dropWhile localB with
    | '@' :: r2 =>
      let dom := r2.takeWhile domB
      !dom.isEmpty &&
        (match r2.dropWhile domB with
         | '.' :: r4 => !r4.isEmpty && r4.all wordB
         | _ => false)
    | _ => false

/-- The `commonWords` list of `attemptEmailRescue`. -/
def commonWordsL : List (List Char) :=
  (["Telefon", "telefon", "Tlf", "tlf", "Mobil", "mobil",
    "Name", "name", "Navn", "navn", "Kontakt", "kontakt",
    "Email", "email"] : List String).map String.data

/-- The known-TLD scan of `attemptEmailRescue` (source lines 399-410). -/
def rescueTldL (pot : List Char) (atPos : Nat) : Option (List Char) :=
  tldsL.findSome? fun t =>
    match indexOfFromL (pot.map lowerAscii) ('.' :: t) atPos with
    | some p =>
      if atPos < p then
        let part := pot.take (p + t.length + 1)
        if anchoredTestL part then some part else none
      else none
    | none => none

/-- The contamination-word scan of `attemptEmailRescue` (source lines 423-437). -/
def rescueWordsL (pot : List Char) (lastDot : Nat) : Option (List Char) :=
  commonWordsL.findSome? fun w =>
    (List.range' 2 5).findSome? fun tl =>
      let checkPos := lastDot + tl + 1
      if checkPos < pot.length then
        if isPrefixL w (pot.drop checkPos) then
          let cand := pot.take checkPos
          if anchoredTestL cand then some cand else none
        else none
      else none

/-- `attemptEmailRescue` (source lines 387-451). -/
def attemptEmailRescueL (input : List Char) : Option (List Char) :=
  match firstPotL input with
  | none => none
  | some pot =>
    match indexOfFromL pot ['@'] 0 with
    | none => none
    | some atPos =>
      match rescueTldL pot atPos with
      | some e => some e
      | none =>
        match lastIndexOfCharL pot '.' with
        | none => none
        | some lastDot =>
          if atPos < lastDot then
            match rescueWordsL pot lastDot with
            | some e => some e
            | none =>
              let tldEnd := lastDot + 4
              if tldEnd ≤ pot.length then
                let cand := pot.take tldEnd
                if anchoredTestL cand then some cand else none
              else none
          else none

/-- The punctuation stripped by `cleanEmail`'s step 1: `[,;:()<>[\]]`. -/
def punctChars : List Char := [',', ';', ':', '(', ')', '<', '>', '[', ']']

/-- Obfuscation patterns `\[(at|et)\]|\(at\)|@\[at\]` (case-insensitive). -/
def obfAtPats : List (List Char) :=
  (["[at]", "[et]", "(at)", "@[at]"] : List String).map String.data

/-- Obfuscation patterns `\[(dot|punkt)\]|\(dot\)|\(punktum\)`. -/
def obfDotPats : List (List Char) :=
  (["[dot]", "[punkt]", "(dot)", "(punktum)"] : List String).map String.data

/-- Step 1 of `cleanEmail` (source lines 342-347): the five `replace` calls,
applied in source order. -/
def basicCleanL (s : List Char) : List Char :=
  let s1 := s.filter (fun c => !isJsWsB c)
  let s2 := replaceAllL "&nbsp;".data [] s1
  let s3 := s2.filter (fun c => !punctChars.contains c)
  let s4 := replaceAltsCI obfAtPats ['@'] s3
  replaceAltsCI obfDotPats ['.'] s4

/-- `cleanEmail` (source lines 336-457). -/
def cleanEmailL (s : List Char) : Option (List Char) :=
  let c := basicCleanL s
  match extractStandardEmailL c with
  | some e => some e
  | none => attemptEmailRescueL c

/-- String-level wrapper for `cleanEmail`. -/
def cleanEmail (s : String) : Option String :=
  (cleanEmailL s.data).map String.mk

/-! ## Global email discovery (source lines 267-329)

The strict pattern is `(^|[^a-zA-Z0-9])([\w.+-]+@[\w-]+\.[\w.-]+)([^a-zA-Z0-9]|$)`
with the `g` flag: the `exec` loop collects capture group 2 of each match and
resumes after the full match (including the consumed boundary character). -/

/-- Group 2 plus closing boundary of the strict global pattern matched with
the group-2 text starting at this position; returns
(length of group2 plus group3, group 2). -/
def strictG2AtL (s : List Char) : Option (Nat × List Char) :=
  let loc := s.takeWhile localB
  if loc.isEmpty then none else
  match s.dropWhile localB with
  | '@' :: r2 =>
    let dom := r2.takeWhile domB
    if dom.isEmpty then none else
    (match r2.dropWhile domB with
     | '.' :: r4 =>
       let tl := r4.takeWhile tailB
       if tl.isEmpty then none else
       let g2 := loc ++ '@' :: dom ++ '.' :: tl
       (match r4.drop tl.length with
        | [] => some (g2.length, g2)
        | c :: _ => if !isAlnumB c then some (g2.length + 1, g2) else none)
     | _ => none)
  | _ => none

/-- One match attempt of the full strict pattern at this position: group 1 is
`^` (only allowed when `caret` is set, i.e. at absolute position 0) or a
single non-alphanumeric character.  Returns (full match length, group 2). -/
def strictFullAtL (s : List Char) (caret : Bool) : Option (Nat × List Char) :=
  match (if caret then strictG2AtL s else none) with
  | some r => some r
  | none =>
    match s with
    | [] => none
    | c :: cs =>
      if !isAlnumB c then (strictG2AtL cs).map (fun r => (r.1 + 1, r.2)) else none

/-- The `exec` loop of the strict pattern: list of (full match, group 2)
pairs, scanning left to right and resuming after each full match. -/
def strictMatchesF : Nat → List Char → Bool → List (List Char × List Char)
  | 0, _, _ => []
  | _ + 1, [], _ => []
  | fuel + 1, c :: cs, caret =>
    match strictFullAtL (c :: cs) caret with
    | some (len, g2) =>
      ((c :: cs).take len, g2) :: strictMatchesF fuel ((c :: cs).drop (max len 1)) false
    | none => strictMatchesF fuel cs false

def strictMatchesL (s : List Char) (caret : Bool) : List (List Char × List Char) :=
  strictMatchesF s.length s caret

/-- The per-TLD fallback pattern `[\w.+-]+@[\w-]+\.TLD` (flags `gi`) matched
at this position; returns the full match length. -/
def tldPatAtL (tld : List Char) (s : List Char) : Option Nat :=
  let loc := s.takeWhile localB
  if loc.isEmpty then none else
  match s.dropWhile localB with
  | '@' :: r2 =>
    let dom := r2.takeWhile domB
    if dom.isEmpty then none else
    (match r2.dropWhile domB with
     | '.' :: r4 =>
       if ciPrefixL tld r4 then some (loc.length + 1 + dom.length + 1 + tld.length)
       else none
     | _ => none)
  | _ => none

/-- The `exec` loop of one per-TLD pattern (full matches). -/
def tldLoopF (tld : List Char) : Nat → List Char → List (List Char)
  | 0, _ => []
  | _ + 1, [] => []
  | fuel + 1, c :: cs =>
    match tldPatAtL tld (c :: cs) with
    | some len => (c :: cs).take len :: tldLoopF tld fuel ((c :: cs).drop (max len 1))
    | none => tldLoopF tld fuel cs

def tldLoopL (tld s : List Char) : List (List Char) := tldLoopF tld s.length s

/-- Stage 2 of the discovery: every per-TLD pattern in allowlist order,
matches concatenated (source lines 289-299). -/
def stage2MatchesL (s : List Char) : List (List Char) :=
  tldsL.flatMap (fun t => tldLoopL t s)

/-- Stage 3: the `exec` loop of the permissive pattern
`[\w.+-]+@[\w-]+\.[\w.-]+` (source lines 307-327, full matches). -/
def simpleLoopF : Nat → List Char → List (List Char)
  | 0, _ => []
  | _ + 1, [] => []
  | fuel + 1, c :: cs =>
    match matchPotAtL (c :: cs) with
    | some m => m :: simpleLoopF fuel ((c :: cs).drop (max m.length 1))
    | none => simpleLoopF fuel cs

def simpleLoopL (s : List Char) : List (List Char) := simpleLoopF s.length s

/-- `rawEmailMatches` (source lines 273-329): strict matches, else per-TLD
matches, else permissive matches. -/
def rawEmailMatchesL (body : List Char) : List (List Char) :=
  let s1 := (strictMatchesL body true).map Prod.snd
  if s1 ≠ [] then s1
  else
    let s2 := stage2MatchesL body
    if s2 ≠ [] then s2 else simpleLoopL body

/-- `cleanEmails` (source lines 460-462). -/
def cleanEmailsS (body : String) : List String :=
  ((rawEmailMatchesL body.data).filterMap cleanEmailL).map String.mk

/-- The page-level `email` value (source line 465). -/
def emailTopS (body : String) : Option String :=
  (cleanEmailsS body).head?

/-! ## Phone numbers (source lines 467-488)

`phoneRegex = /\+?\d[\d\s\-]{7,}/g`. -/

def phoneTailB (c : Char) : Bool := isAsciiDigitB c || isJsWsB c || c == '-'

/-- One match attempt of the phone pattern at this position (match length). -/
def phoneAtL : List Char → Option Nat
  | '+' :: c :: rest =>
    if isAsciiDigitB c then
      let run := rest.takeWhile phoneTailB
      if 7 ≤ run.length then some (2 + run.length) else none
    else none
  | c :: rest =>
    if isAsciiDigitB c then
      let run := rest.takeWhile phoneTailB
      if 7 ≤ run.length then some (1 + run.length) else none
    else none
  | [] => none

/-- All phone matches (`jobDetailsText.match(phoneRegex)`), left to right,
non-overlapping. -/
def phoneLoopF : Nat → List Char → List (List Char)
  | 0, _ => []
  | _ + 1, [] => []
  | fuel + 1, c :: cs =>
    match phoneAtL (c :: cs) with
    | some len => (c :: cs).take len :: phoneLoopF fuel ((c :: cs).drop (max len 1))
    | none => phoneLoopF fuel cs

def phoneLoopL (s : List Char) : List (List Char) := phoneLoopF s.length s

/-- `cleanedPhones` (source lines 472-481): each match with whitespace runs
collapsed and trimmed, in match order, duplicates kept. -/
def cleanedPhonesS (body : String) : List String :=
  (phoneLoopL body.data).map (fun p => String.mk (trimL (collapseWsL p)))

/-- The page-level `phoneNumber` value (source lines 473-488): the first at
most 3 distinct cleaned matches joined with " / ", or absent. -/
def globalPhoneNumberS (body : String) : Option String :=
  if phoneLoopL body.data = [] then none
  else some (String.intercalate " / " ((dedupKeepFirst (cleanedPhonesS body)).take 3))

/-! ## The DOM model

The HTML query engine is an external collaborator: a `DetailPage` records the
results of each fixed selector query the DETAIL handler performs.  Contact
extraction walks real structure, so the lists the handler iterates
(`ul` elements and their `li` children) are modelled explicitly. -/

/-- A `li` element: its text content, and whether it has a
`span.pr-8.font-bold` child containing "Kontaktperson" (the structured
contact marker, source line 494). -/
structure LiE where
  text : String
  kontaktSpan : Bool
deriving DecidableEq, Repr

/-- A `ul` element: its `li` children in order and its inner HTML (used by
`$(element).parent().html()`, source line 554). -/
structure UlE where
  items : List LiE
  htmlStr : String
deriving DecidableEq, Repr

/-- Text content of a `ul` (concatenated `li` texts, cheerio `.text()`). -/
def ulText (u : UlE) : String := String.join (u.items.map (·.text))

def containsS (hay pat : String) : Bool := containsL hay.data pat.data

def trimS (s : String) : String := String.mk (trimL s.data)

def replaceFirstS (s pat rep : String) : String :=
  String.mk (replaceFirstL pat.data rep.data s.data)

def collapseTrimS (s : String) : String := String.mk (trimL (collapseWsL s.data))

/-- `li:contains("Telefon"), li:contains("Mobil"), li:contains("Tlf")`. -/
def liPhoneLabel (li : LiE) : Bool :=
  containsS li.text "Telefon" || containsS li.text "Mobil" || containsS li.text "Tlf"

/-- `/Telefon:|Mobil:|Tlf:/gi` (lower-cased alternatives). -/
def phoneLabelPats : List (List Char) :=
  (["telefon:", "mobil:", "tlf:"] : List String).map String.data

/-- `.replace(/Telefon:|Mobil:|Tlf:/gi, '').trim()`. -/
def stripPhoneLabels (s : String) : String :=
  String.mk (trimL (replaceAltsCI phoneLabelPats [] s.data))

/-- `ContactPersonData` (source lines 17-22). -/
structure ContactPersonData where
  name : String
  role : Option String := none
  phoneNumber : Option String := none
  email : Option String := none
deriving DecidableEq, Repr

/-- One iteration of `contactElements.each` (source lines 498-568):
extraction of one structured contact from its `li` (index `i` in its parent
`ul` `u`), given the page-global `cleanedPhones` list. -/
def extractContact (globalPhones : List String) (u : UlE) (i : Nat) : ContactPersonData :=
  let liTxt := (match u.items.get? i with | some li => li.text | none => "")
  let name := trimS (replaceFirstS liTxt "Kontaktperson:" "")
  let nextTxt : Option String := (u.items.get? (i + 1)).map (·.text)
  let nextHasMobil := match nextTxt with
    | some t => containsS t "Mobil"
    | none => false
  let contactPhone : Option String :=
    if nextHasMobil then
      some (trimS (replaceFirstS (nextTxt.getD "") "Mobil:" ""))
    else
      let phoneLis := u.items.filter liPhoneLabel
      if phoneLis ≠ [] then
        some (stripPhoneLabels (String.join (phoneLis.map (·.text))))
      else
        let sectionText := ulText u
        match globalPhones.find? (fun p => containsS sectionText p) with
        | some p => some p
        | none =>
          match phoneLoopL sectionText.data with
          | m :: _ => some (collapseTrimS (String.mk m))
          | [] => none
  let titleLis := u.items.filter (fun li => containsS li.text "Stillingstittel")
  let contactRole : Option String :=
    if titleLis ≠ [] then
      some (trimS (replaceFirstS (String.join (titleLis.map (·.text))) "Stillingstittel:" ""))
    else none
  let emailLis := u.items.filter (fun li => containsS li.text "E-post")
  let contactEmail : Option String :=
    if emailLis ≠ [] then
      cleanEmail (trimS (replaceFirstS (String.join (emailLis.map (·.text))) "E-post:" ""))
    else
      match strictMatchesL u.htmlStr.data true with
      | (full, _) :: _ => cleanEmail (String.mk full)
      | [] => none
  { name := name, role := contactRole, phoneNumber := contactPhone, email := contactEmail }

/-- Indices of the `li` children of `u` carrying the structured contact
marker. -/
def kontaktIdxs (u : UlE) : List Nat :=
  (List.range u.items.length).filter
    (fun i => ((u.items.get? i).map (·.kontaktSpan)).getD false)

/-- The (parent `ul`, `li` index) pairs contributed by one `ul` to
`$('span.pr-8.font-bold:contains("Kontaktperson")').parent('li')`. -/
def ulKontaktPairs (u : UlE) : List (UlE × Nat) :=
  (kontaktIdxs u).map (fun i => (u, i))

/-- All structured-contact elements of the page, in document order. -/
def kontaktPairs (uls : List UlE) : List (UlE × Nat) :=
  uls.flatMap ulKontaktPairs

/-! ## The DETAIL page model and the scalar extractors -/

/-- The selector results consumed by the DETAIL handler.  Each field records
what the HTML query engine returns for one fixed query of the source;
`Option` fields are `none` when the selection is empty (respectively the
attribute is missing). -/
structure DetailPage where
  url : String
  bodyText : String
  uls : List UlE
  rekLeaderText : Option String
  mainTitleSel : String
  h1Text : String
  sectionSubtitle : String
  firmaDd : Option String
  logoAlt : Option String
  spanFirmaParent : String
  omArbeidsgiver : String
  podletText : String
  logoSrcAttr : Option String
  descSectionExists : Bool
  workDutiesHtml : Option String
  qualificationsHtml : Option String
  descAllHtml : Option String
  fallbackDescHtml : Option String
  applicationHref : Option String
  stedSpanExists : Bool
  stedSpanNextText : String
  stedLiText : Option String
  addressText : String
  ansettLiText : Option String
  fristLiBold : Option String
  fristSpanParent : Option String
  timeExists : Bool
  timeAttr : Option String
  sistEndret : String
deriving DecidableEq, Repr

/-- Title extraction (source lines 178-180): `mainTitle || subTitle`. -/
def extractTitle (p : DetailPage) : String :=
  let mainTitle := trimS p.mainTitleSel
  let subTitle := trimS p.h1Text
  if mainTitle ≠ "" then mainTitle else subTitle

/-- `.replace(/\slogo$/i, '')` (source line 200): strip one whitespace
character followed by "logo" (case-insensitive) at the end. -/
def stripLogoSuffix (s : String) : String :=
  let l := s.data
  if 5 ≤ l.length then
    match l.drop (l.length - 5) with
    | c :: rest =>
      if isJsWsB c && rest.map lowerAscii = "logo".data then
        String.mk (l.take (l.length - 5))
      else s
    | [] => s
  else s

/-- `.split(pat)[0]`: the text before the first occurrence of `pat`. -/
def splitHeadL (pat : List Char) : List Char → List Char
  | [] => []
  | c :: cs =>
    if pat ≠ [] && isPrefixL pat (c :: cs) then []
    else c :: splitHeadL pat cs

def splitHeadS (s pat : String) : String := String.mk (splitHeadL pat.data s.data)

/-- Company extraction (source lines 183-210): the four fallback steps. -/
def extractCompany (p : DetailPage) : String :=
  let c1 := trimS p.sectionSubtitle
  let c2 := if c1 ≠ "" then c1 else
    match p.firmaDd with
    | some t => trimS t
    | none => ""
  let c3 := if c2 ≠ "" then c2 else
    match p.logoAlt with
    | some la => if containsS la "logo" then trimS (stripLogoSuffix la) else ""
    | none => ""
  if c3 ≠ "" then c3 else
    let a := trimS (replaceFirstS p.spanFirmaParent "Firma:" "")
    if a ≠ "" then a else
      let b := trimS p.omArbeidsgiver
      if b ≠ "" then b else trimS (splitHeadS p.podletText "Les om arbeidsplassen")

/-- Truncation of an over-long description (source lines 244-247, 253-256). -/
def truncateDesc (d : String) : String :=
  if 2000 < d.data.length then String.mk (d.data.take 2000) ++ "... (truncated)" else d

/-- Description extraction (source lines 216-257). -/
def extractDescription (p : DetailPage) : String :=
  if p.descSectionExists then
    let sections :=
      (match p.workDutiesHtml with
       | some h => ["<h3>Arbeidsoppgaver</h3>" ++ h]
       | none => []) ++
      (match p.qualificationsHtml with
       | some h => ["<h3>Kvalifikasjoner</h3>" ++ h]
       | none => [])
    if sections = [] then truncateDesc (p.descAllHtml.getD "")
    else String.join sections
  else truncateDesc (p.fallbackDescHtml.getD "")

/-- Location extraction (source lines 633-644). -/
def extractLocation (p : DetailPage) : Option String :=
  if p.stedSpanExists then some (trimS p.stedSpanNextText)
  else
    match p.stedLiText with
    | some t => some (trimS (replaceFirstS t "Sted" ""))
    | none =>
      let a := trimS p.addressText
      if a ≠ "" then some a else none

/-- `employmentTypeLabels` (source lines 648-651). -/
def employmentTypeLabels : List String :=
  ["Fast", "Deltid", "Heltid", "Engasjement", "Prosjekt", "Sesong",
   "Vikariat", "Franchise", "Selvstendig næringsdrivende", "Timebasert"]

/-- Employment-type extraction (source lines 646-662): first label of the
vocabulary occurring in the page text (plain `includes`), else the
"Ansettelsesform" list item. -/
def extractEmploymentType (bodyText : String) (ansettLiText : Option String) : Option String :=
  match employmentTypeLabels.find? (fun l => containsS bodyText l) with
  | some l => some l
  | none =>
    match ansettLiText with
    | some t => some (trimS (replaceFirstS t "Ansettelsesform" ""))
    | none => none

/-- Expiration-date extraction (source lines 665-670). -/
def extractExpirationDate (p : DetailPage) : Option String :=
  match p.fristLiBold with
  | some b => some (trimS b)
  | none =>
    match p.fristSpanParent with
    | some t => some (trimS (replaceFirstS t "Frist" ""))
    | none => none

/-- Publication-date extraction (source lines 673-676). -/
def extractPublicationDate (p : DetailPage) : Option String :=
  if p.timeExists then p.timeAttr
  else some (trimS (replaceFirstS p.sistEndret "Sist endret" ""))

/-- `request.url.match(/finnkode=(\d+)/)` group 1 (source lines 174-175). -/
def finnkodeGoL : List Char → Option String
  | [] => none
  | c :: cs =>
    if isPrefixL "finnkode=".data (c :: cs) then
      let ds := (cs.drop 8).takeWhile isAsciiDigitB
      if ds ≠ [] then some (String.mk ds) else finnkodeGoL cs
    else finnkodeGoL cs

def finnkodeOf (url : String) : Option String := finnkodeGoL url.data

/-- `attr(...) || undefined`: JS `||` turns an empty attribute into
`undefined`. -/
def orUndef (a : Option String) : Option String :=
  match a with
  | some s => if s = "" then none else some s
  | none => none

/-! ## Contact resolution (source lines 490-627) -/

/-- The structured branch (source lines 496-568). -/
def structuredContacts (globalPhones : List String) (uls : List UlE) : List ContactPersonData :=
  (kontaktPairs uls).map (fun pr => extractContact globalPhones pr.1 pr.2)

/-- The legacy single-contact branch (source lines 569-602). -/
def legacyContact (p : DetailPage) : ContactPersonData :=
  let allLis := p.uls.flatMap (·.items)
  let kLis := allLis.filter (fun li => containsS li.text "Kontaktperson")
  let name := trimS (replaceFirstS (String.join (kLis.map (·.text))) "Kontaktperson" "")
  let kUls := p.uls.filter (fun u => u.items.any (fun li => containsS li.text "Kontaktperson"))
  let phoneLis := kUls.flatMap (fun u => u.items.filter liPhoneLabel)
  let contactPhone : Option String :=
    if phoneLis ≠ [] then some (stripPhoneLabels (String.join (phoneLis.map (·.text))))
    else globalPhoneNumberS p.bodyText
  let emailLis := kUls.flatMap (fun u => u.items.filter (fun li => containsS li.text "E-post"))
  let contactEmail : Option String :=
    if emailLis ≠ [] then
      cleanEmail (trimS (replaceFirstS (String.join (emailLis.map (·.text))) "E-post:" ""))
    else emailTopS p.bodyText
  { name := name, phoneNumber := contactPhone, email := contactEmail }

/-- The recruiting-manager branch (source lines 603-627), applied to
`leaderInfo = $('strong:contains("Rekrutterende leder")').parent().text()`. -/
def recruitingContact (info : String) : ContactPersonData :=
  let name := trimS (splitHeadS (replaceFirstS info "Rekrutterende leder:" "") "|")
  let contactPhone : Option String :=
    match phoneLoopL info.data with
    | m :: _ => some (collapseTrimS (String.mk m))
    | [] => none
  let contactEmail : Option String :=
    match strictMatchesL info.data true with
    | (full, _) :: _ => cleanEmail (String.mk full)
    | [] => none
  { name := name, phoneNumber := contactPhone, email := contactEmail }

/-- The `contactPersons` array after the three mutually exclusive branches
(source lines 491-627). -/
def contactPersons (p : DetailPage) : List ContactPersonData :=
  if kontaktPairs p.uls ≠ [] then
    structuredContacts (cleanedPhonesS p.bodyText) p.uls
  else if (p.uls.flatMap (·.items)).any (fun li => containsS li.text "Kontaktperson") then
    [legacyContact p]
  else
    match p.rekLeaderText with
    | some info => [recruitingContact info]
    | none => []

/-! ## The job record and the DETAIL handler -/

/-- `JobData` (source lines 25-40); `salary` is declared but never assigned
by the handler. -/
structure JobData where
  url : String
  title : String
  description : String
  company : String
  contactPersons : Option (List ContactPersonData)
  email : Option String
  applicationUrl : Option String
  location : Option String
  employmentType : Option String
  salary : Option String
  publicationDate : Option String
  expirationDate : Option String
  finnkode : Option String
  companyLogoUrl : Option String
deriving DecidableEq, Repr

/-- The record built by the DETAIL handler (source lines 679-693). -/
def buildJobData (p : DetailPage) : JobData :=
  let contacts := contactPersons p
  { url := p.url
    title := extractTitle p
    description := extractDescription p
    company := extractCompany p
    contactPersons := if contacts ≠ [] then some contacts else none
    email := emailTopS p.bodyText
    applicationUrl := orUndef p.applicationHref
    location := extractLocation p
    employmentType := extractEmploymentType p.bodyText p.ansettLiText
    salary := none
    publicationDate := extractPublicationDate p
    expirationDate := extractExpirationDate p
    finnkode := finnkodeOf p.url
    companyLogoUrl := orUndef p.logoSrcAttr }

/-- A DETAIL handler invocation: the page plus the set of step ids at which
an external collaborator throws (step 0 = the extraction of the record
inside the `try` block, step 1 = the `Dataset.pushData` hand-off). -/
structure DetailEnv where
  page : DetailPage
  faults : List Nat
deriving Repr

def stepE (env : DetailEnv) (k : Nat) {α : Type} (x : α) : Except Unit α :=
  if env.faults.contains k then Except.error () else Except.ok x

/-- The body of the `try` block of the DETAIL handler (source lines 172-703):
build the record, then hand it to the persistence sink.  An exception at
either step escapes to the `catch`. -/
def detailBody (env : DetailEnv) : Except Unit JobData :=
  match stepE env 0 (buildJobData env.page) with
  | Except.error e => Except.error e
  | Except.ok jd =>
    match stepE env 1 () with
    | Except.error e => Except.error e
    | Except.ok _ => Except.ok jd

/-- The whole DETAIL handler around its `try`/`catch` (source lines 169-708):
on success the record is persisted and `scrapedJobsCount` is incremented
(source lines 698-701); the `catch` only logs.  Returns the new counter and
what was persisted for this request. -/
def detailHandler (env : DetailEnv) (scraped : Nat) : Nat × Option JobData :=
  match detailBody env with
  | Except.error _ => (scraped, none)
  | Except.ok jd => (scraped + 1, some jd)

/-! ## The LIST handler (source lines 62-166) -/

/-- A link element of a listing page: its `href` attribute and its outer
HTML (the latter is what `jobLinks.toString()` produces). -/
structure LinkEl where
  href : Option String
  outer : String
deriving DecidableEq, Repr

/-- The selector results consumed by the LIST handler. -/
structure ListPage where
  url : String
  adsUnitLinks : List LinkEl
  fCardLinks : List LinkEl
  sfSearchAdLinks : List LinkEl
  genericAdLinks : List LinkEl
  paginationPageLinks : List LinkEl
  pageParamLinks : List LinkEl
deriving DecidableEq, Repr

/-- The selector-fallback chain for job links (source lines 84-97). -/
def jobLinksChain (p : ListPage) : List LinkEl :=
  if p.adsUnitLinks ≠ [] then p.adsUnitLinks
  else if p.fCardLinks ≠ [] then p.fCardLinks
  else if p.sfSearchAdLinks ≠ [] then p.sfSearchAdLinks
  else p.genericAdLinks

/-- The pagination selector-fallback chain (source lines 146-150). -/
def paginationChain (p : ListPage) : List LinkEl :=
  if p.paginationPageLinks ≠ [] then p.paginationPageLinks else p.pageParamLinks

/-- Relative links are resolved against the site origin (source line 117). -/
def absolutize (href : String) : String :=
  if isPrefixL "http".data href.data then href else "https://www.finn.no" ++ href

/-- How the handler enqueued DETAIL work: directly via `crawler.addRequests`
with explicit URLs, or via `enqueueLinks` with a selector string and the
`remainingJobs` limit. -/
inductive DetailEnqueue where
  | noneE : DetailEnqueue
  | direct : List String → DetailEnqueue
  | viaSelector : String → Nat → DetailEnqueue
deriving DecidableEq, Repr

/-- How the handler enqueued further LIST work. -/
inductive ListEnqueue where
  | noneE : ListEnqueue
  | viaSelector : String → ListEnqueue
deriving DecidableEq, Repr

structure ListOutput where
  details : DetailEnqueue
  pagination : ListEnqueue
deriving DecidableEq, Repr

/-- The LIST handler (source lines 62-166). -/
def listHandler (maxJobs scraped : Nat) (p : ListPage) : ListOutput :=
  if !containsS p.url "finn.no" then ⟨DetailEnqueue.noneE, ListEnqueue.noneE⟩
  else
    let jobLinks := jobLinksChain p
    let remaining : Int := (maxJobs : Int) - (scraped : Int)
    if remaining ≤ 0 then ⟨DetailEnqueue.noneE, ListEnqueue.noneE⟩
    else
      let details :=
        if jobLinks ≠ [] && p.genericAdLinks ≠ [] then
          let urls := jobLinks.filterMap (fun l =>
            match l.href with
            | some h =>
              if containsS h "/job/fulltime/ad.html" then some (absolutize h) else none
            | none => none)
          DetailEnqueue.direct (urls.take (min urls.length remaining.toNat))
        else
          DetailEnqueue.viaSelector
            (if jobLinks ≠ [] then String.join (jobLinks.map (·.outer))
             else "a[href*=\"/job/fulltime/ad.html\"]")
            remaining.toNat
      let pagLinks := paginationChain p
      let pagination :=
        if (jobLinks.length : Int) < remaining && pagLinks ≠ [] then
          ListEnqueue.viaSelector
            (if pagLinks ≠ [] then String.join (pagLinks.map (·.outer))
             else "a[href*=\"page=\"]")
        else ListEnqueue.noneE
      ⟨details, pagination⟩

/-- The default handler (source lines 711-724) only logs: it enqueues
nothing and persists nothing, whatever the URL. -/
def defaultHandlerOutput (_url : String) : List String × Option JobData := ([], none)

/-! ## The crawl-level budget model (for the `maxJobs` invariant)

A site is a sequence of listing pages: page `i` shows `numLinks i` job links
and, when `hasPag i`, a pagination link to page `i + 1`.  A crawl state holds
the shared `scrapedJobsCount`, the number of records pushed to the dataset,
and the pending request queue.  One step picks any pending request (the
scheduler index models the concurrent interleaving of handler invocations)
and runs its handler's budget-relevant effects. -/

structure Site where
  numLinks : Nat → Nat
  hasPag : Nat → Bool

inductive CrawlReq where
  | list : Nat → CrawlReq
  | detail : Nat → Nat → CrawlReq
deriving DecidableEq, Repr

structure CrawlState where
  scraped : Nat
  emitted : Nat
  queue : List CrawlReq
deriving Repr

/-- One handler invocation.  LIST (source lines 100-143): read
`remainingJobs = maxJobs - scrapedJobsCount`, return if `≤ 0`, else enqueue
`min(links, remainingJobs)` DETAIL requests and, when
`remainingJobs > jobLinks.length` and pagination exists, the next LIST page.
DETAIL (source lines 698-701): push the record and increment the counter,
unconditionally. -/
def crawlStep (site : Site) (maxJobs : Nat) (st : CrawlState) (i : Nat) : CrawlState :=
  match st.queue.get? i with
  | none => st
  | some r =>
    let rest := st.queue.eraseIdx i
    match r with
    | CrawlReq.list pg =>
      let remaining : Int := (maxJobs : Int) - (st.scraped : Int)
      if remaining ≤ 0 then { st with queue := rest }
      else
        let n := site.numLinks pg
        let details := (List.range (min n remaining.toNat)).map (CrawlReq.detail pg)
        let pag := if (n : Int) < remaining && site.hasPag pg then [CrawlReq.list (pg + 1)] else []
        { st with queue := rest ++ details ++ pag }
    | CrawlReq.detail _ _ =>
      { scraped := st.scraped + 1, emitted := st.emitted + 1, queue := rest }

/-- Run a schedule (one queue index per step) from a state. -/
def crawlRun (site : Site) (maxJobs : Nat) (sched : List Nat) (st : CrawlState) : CrawlState :=
  sched.foldl (crawlStep site maxJobs) st

/-- The initial state: the single seed LIST request (source lines 738-743). -/
def crawlInit : CrawlState := ⟨0, 0, [CrawlReq.list 0]⟩

/-! ## Spec-side comparison definitions -/

/-- Parse of an "already-clean address" in the sense of the spec
(§4.5 idempotence): `local@domain.tld` where the local part is a nonempty
run over `[\w.+-]`, the domain a nonempty run over `[\w-]`, and the TLD is
on the allowlist (case-insensitively).  Used to state the amended
idempotence claim. -/
def cleanAddressParse (s : List Char) : Option (List Char × List Char × List Char) :=
  match s.dropWhile localB with
  | '@' :: r2 =>
    (match r2.dropWhile domB with
     | '.' :: t =>
       if s.takeWhile localB ≠ [] ∧ r2.takeWhile domB ≠ [] ∧
           tldsL.contains (t.map lowerAscii) = true then
         some (s.takeWhile localB, r2.takeWhile domB, t)
       else none
     | _ => none)
  | _ => none

def isCleanAddressB (e : String) : Bool := (cleanAddressParse e.data).isSome

/-- Modelled from the spec: "matched as whole-word substrings" (§4.3) ---
an occurrence of `pat` in `text` whose neighbouring characters (when
present) are not word characters. -/
def specWholeWordGo (pat : List Char) : List Char → Option Char → Bool
  | [], _ => false
  | c :: cs, before =>
    (isPrefixL pat (c :: cs) &&
      (match before with | some b => !wordB b | none => true) &&
      (match (c :: cs).drop pat.length with | [] => true | x :: _ => !wordB x)) ||
    specWholeWordGo pat cs (some c)

def specWholeWordOccursS (text pat : String) : Bool :=
  specWholeWordGo pat.data text.data none

/-! ## Concrete sample inputs used by the witnesses and counterexamples -/

/-- A DETAIL page on which every selector query comes back empty. -/
def blankDetailPage : DetailPage :=
  { url := "", bodyText := "", uls := [], rekLeaderText := none,
    mainTitleSel := "", h1Text := "", sectionSubtitle := "", firmaDd := none,
    logoAlt := none, spanFirmaParent := "", omArbeidsgiver := "",
    podletText := "", logoSrcAttr := none, descSectionExists := false,
    workDutiesHtml := none, qualificationsHtml := none, descAllHtml := none,
    fallbackDescHtml := none, applicationHref := none, stedSpanExists := false,
    stedSpanNextText := "", stedLiText := none, addressText := "",
    ansettLiText := none, fristLiBold := none, fristSpanParent := none,
    timeExists := false, timeAttr := none, sistEndret := "" }

/-- The overshoot site: listing page 0 shows 1 job link and a pagination
link to page 1, which shows 2 job links. -/
def c1Site : Site :=
  ⟨fun n => match n with | 0 => 1 | 1 => 2 | _ => 0, fun n => n == 0⟩

/-- The overshoot schedule: process listing page 1 before the detail page
enqueued by listing page 0 completes, then drain the queue. -/
def c1Sched : List Nat := [0, 1, 0, 0, 0]

/-- Three structured contact blocks, each with its own phone and email. -/
def c3Block1 : UlE :=
  ⟨[⟨"Kontaktperson: Anna Ask", true⟩, ⟨"Telefon: 11 22 33 44", false⟩,
    ⟨"E-post: anna@firma.no", false⟩], ""⟩

def c3Block2 : UlE :=
  ⟨[⟨"Kontaktperson: Bo Berg", true⟩, ⟨"Mobil: 22 33 44 55", false⟩,
    ⟨"E-post: bo@firma.no", false⟩], ""⟩

def c3Block3 : UlE :=
  ⟨[⟨"Kontaktperson: Siri Strand", true⟩, ⟨"Tlf: 33 44 55 66", false⟩,
    ⟨"E-post: siri@firma.no", false⟩], ""⟩

def c3Page : DetailPage :=
  { blankDetailPage with
      url := "https://www.finn.no/job/fulltime/ad.html?finnkode=111",
      uls := [c3Block1, c3Block2, c3Block3] }

/-- A DETAIL request for a foreign host (no host check exists on the DETAIL
path). -/
def c4EvilPage : DetailPage :=
  { blankDetailPage with
      url := "https://evil.example.com/job/fulltime/ad.html?finnkode=99",
      mainTitleSel := "Par fra utlandet" }

/-- A page whose structured contact block consists of the bare label, so the
extracted name is empty. -/
def c6Page : DetailPage :=
  { blankDetailPage with
      url := "https://www.finn.no/job/fulltime/ad.html?finnkode=42",
      uls := [⟨[⟨"Kontaktperson:", true⟩], ""⟩] }

/-- A legacy single-contact page: one "Kontaktperson" list item without the
structured marker and without any phone label, while the page text contains
three distinct phone numbers. -/
def c10Page : DetailPage :=
  { blankDetailPage with
      url := "https://www.finn.no/job/fulltime/ad.html?finnkode=7",
      bodyText := "Ring 12345678, 23456789 eller 34567890 i dag",
      uls := [⟨[⟨"Kontaktperson Ola Olsen", false⟩], ""⟩] }

/-- A listing page where the primary selector matches nothing and the
`.f-card--job a` fallback matches five links. -/
def c8Page : ListPage :=
  { url := "https://www.finn.no/job/fulltime/search.html?occupation=0.23",
    adsUnitLinks := [],
    fCardLinks :=
      [⟨some "/job/fulltime/ad.html?finnkode=1", "<a one>"⟩,
       ⟨some "/job/fulltime/ad.html?finnkode=2", "<a two>"⟩,
       ⟨some "/job/fulltime/ad.html?finnkode=3", "<a three>"⟩,
       ⟨some "/job/fulltime/ad.html?finnkode=4", "<a four>"⟩,
       ⟨some "/job/fulltime/ad.html?finnkode=5", "<a five>"⟩],
    sfSearchAdLinks := [],
    genericAdLinks :=
      [⟨some "/job/fulltime/ad.html?finnkode=1", "<a one>"⟩],
    paginationPageLinks := [], pageParamLinks := [] }

/-! ## Helper lemmas on character classes -/

theorem localB_of_domB {c : Char} (h : domB c = true) : localB c = true := by
  simp [domB, localB, wordB] at *
  tauto

theorem localB_of_alnum {c : Char} (h : isAlnumB c = true) : localB c = true := by
  simp [localB, wordB]
  tauto

theorem char_eq_of_lower_lbracket {c : Char} (h : lowerAscii c = '[') : c = '[' := by
  revert h
  unfold lowerAscii
  split <;> intro h <;> first | exact absurd h (by decide) | exact h

theorem char_eq_of_lower_lparen {c : Char} (h : lowerAscii c = '(') : c = '(' := by
  revert h
  unfold lowerAscii
  split <;> intro h <;> first | exact absurd h (by decide) | exact h

theorem alnum_of_lower_alnum {c : Char} (h : isAlnumB (lowerAscii c) = true) :
    isAlnumB c = true := by
  revert h
  unfold lowerAscii
  split <;> intro h <;> first | exact h | decide

/-- Characters of a clean address are untouched by every cleaning step. -/
theorem goodChar_facts {c : Char} (h : localB c = true ∨ c = '@' ∨ c = '.') :
    isJsWsB c = false ∧ c ≠ '&' ∧ punctChars.contains c = false ∧
      lowerAscii c ≠ '[' ∧ lowerAscii c ≠ '(' := by
  refine ⟨?_, ?_, ?_, ?_, ?_⟩
  · cases hw : isJsWsB c
    · rfl
    · exfalso
      simp [isJsWsB, wsChars] at hw
      rcases hw with h' | h' | h' | h' | h' | h' | h' <;> subst h' <;> revert h <;> decide
  · intro he
    subst he
    revert h
    decide
  · cases hp : punctChars.contains c
    · rfl
    · exfalso
      simp [punctChars] at hp
      rcases hp with h' | h' | h' | h' | h' | h' | h' | h' | h' <;> subst h' <;> revert h <;> decide
  · intro hl
    have hc := char_eq_of_lower_lbracket hl
    subst hc
    revert h
    decide
  · intro hl
    have hc := char_eq_of_lower_lparen hl
    subst hc
    revert h
    decide

/-! ## Helper lemmas on lists and the matchers -/

theorem takeWhile_append_of {p : Char → Bool} :
    ∀ {l : List Char} (r : List Char), (∀ c ∈ l, p c = true) →
      (l ++ r).takeWhile p = l ++ r.takeWhile p := by
  intro l
  induction l with
  | nil => intro r _; simp
  | cons c cs ih =>
    intro r h
    have hc : p c = true := h c (by simp)
    simp only [List.cons_append, List.takeWhile_cons_of_pos hc]
    rw [ih r (fun x hx => h x (by simp [hx]))]

theorem dropWhile_append_of {p : Char → Bool} :
    ∀ {l : List Char} (r : List Char), (∀ c ∈ l, p c = true) →
      (l ++ r).dropWhile p = r.dropWhile p := by
  intro l
  induction l with
  | nil => intro r _; simp
  | cons c cs ih =>
    intro r h
    have hc : p c = true := h c (by simp)
    simp only [List.cons_append, List.dropWhile_cons_of_pos hc]
    exact ih r (fun x hx => h x (by simp [hx]))

theorem ciPrefixL_map_lower : ∀ t : List Char, ciPrefixL (t.map lowerAscii) t = true := by
  intro t
  induction t with
  | nil => rfl
  | cons c cs ih => simp [List.map_cons, ciPrefixL, ih]

theorem ciPrefixL_spec : ∀ (p s : List Char), ciPrefixL p s = true →
    p = (s.take p.length).map lowerAscii ∧ p.length ≤ s.length := by
  intro p
  induction p with
  | nil => intro s _; simp
  | cons x xs ih =>
    intro s h
    cases s with
    | nil => simp [ciPrefixL] at h
    | cons c cs =>
      simp only [ciPrefixL, Bool.and_eq_true, beq_iff_eq] at h
      obtain ⟨h1, h2⟩ := h
      obtain ⟨e1, e2⟩ := ih cs h2
      refine ⟨?_, by simpa using e2⟩
      simp only [List.length_cons, List.take_succ_cons, List.map_cons]
      rw [h1, ← e1]

theorem findSome?_eq_some_of {α β : Type} (f : α → Option β) (v : β) :
    ∀ l : List α, (∀ a ∈ l, ∀ b, f a = some b → b = v) →
      (∃ a ∈ l, (f a).isSome) → l.findSome? f = some v := by
  intro l
  induction l with
  | nil => intro _ h; simp at h
  | cons a as ih =>
    intro hu hex
    cases hfa : f a with
    | some b =>
      have hb : b = v := hu a (by simp) b hfa
      subst hb
      simp [List.findSome?_cons, hfa]
    | none =>
      have hex' : ∃ x ∈ as, (f x).isSome := by
        rcases hex with ⟨x, hx, hs⟩
        rcases (List.mem_cons.mp hx) with rfl | hx'
        · rw [hfa] at hs; simp at hs
        · exact ⟨x, hx', hs⟩
      simp only [List.findSome?_cons, hfa]
      exact ih (fun x hx b hb => hu x (by simp [hx]) b hb) hex'

/-- Every character of every allowlisted TLD is alphanumeric. -/
theorem tlds_chars_alnum : ∀ T ∈ tldsL, ∀ x ∈ T, isAlnumB x = true := by decide

/-- On a bare allowlisted TLD the alternation of `extractStandardEmail`
matches the whole TLD (an earlier allowlist entry that is a proper prefix is
rejected by the boundary check). -/
theorem tldTryL_self {t : List Char} (ht : tldsL.contains (t.map lowerAscii) = true) :
    tldTryL t = some t := by
  have htm : t.map lowerAscii ∈ tldsL := by simpa using ht
  have haln : ∀ c ∈ t, isAlnumB c = true := by
    intro c hc
    exact alnum_of_lower_alnum (tlds_chars_alnum _ htm _ (List.mem_map_of_mem _ hc))
  unfold tldTryL
  apply findSome?_eq_some_of
  · intro t0 _ b hb
    split at hb
    · next hcond =>
      obtain ⟨hci, hbd⟩ := Bool.and_eq_true_iff.mp hcond
      obtain ⟨_, hlen⟩ := ciPrefixL_spec t0 t hci
      have hlen' : t0.length = t.length := by
        by_contra hne
        have hlt : t0.length < t.length := lt_of_le_of_ne hlen hne
        have hdropne : t.drop t0.length ≠ [] := by
          intro hnil
          have := List.length_drop t0.length t
          rw [hnil] at this
          simp at this
          omega
        obtain ⟨x, xs, hx⟩ := List.exists_cons_of_ne_nil hdropne
        have hxmem : x ∈ t := List.mem_of_mem_drop (by rw [hx]; simp)
        rw [hx] at hbd
        simp [boundaryOkL, haln x hxmem] at hbd
      injection hb with hb'
      rw [← hb', hlen', List.take_length]
    · exact absurd hb (by simp)
  · refine ⟨t.map lowerAscii, htm, ?_⟩
    have h1 : ciPrefixL (t.map lowerAscii) t = true := ciPrefixL_map_lower t
    have h2 : boundaryOkL (t.drop (t.map lowerAscii).length) = true := by
      rw [List.length_map, List.drop_length]
      rfl
    simp [h1, h2, boundaryOkL]

/-- The strict matcher succeeds on a clean address, returning it whole. -/
theorem matchEmailAtL_clean {l d t : List Char}
    (hl : l ≠ []) (hlc : ∀ c ∈ l, localB c = true)
    (hd : d ≠ []) (hdc : ∀ c ∈ d, domB c = true)
    (ht : tldsL.contains (t.map lowerAscii) = true) :
    matchEmailAtL (l ++ '@' :: (d ++ '.' :: t)) = some (l ++ '@' :: (d ++ '.' :: t)) := by
  have hat : localB '@' = false := by decide
  have hdot : domB '.' = false := by decide
  have h1 : (l ++ '@' :: (d ++ '.' :: t)).takeWhile localB = l := by
    rw [takeWhile_append_of _ hlc, List.takeWhile_cons_of_neg (by simp [hat])]
    simp
  have h2 : (l ++ '@' :: (d ++ '.' :: t)).dropWhile localB = '@' :: (d ++ '.' :: t) := by
    rw [dropWhile_append_of _ hlc, List.dropWhile_cons_of_neg (by simp [hat])]
  have h3 : (d ++ '.' :: t).takeWhile domB = d := by
    rw [takeWhile_append_of _ hdc, List.takeWhile_cons_of_neg (by simp [hdot])]
    simp
  have h4 : (d ++ '.' :: t).dropWhile domB = '.' :: t := by
    rw [dropWhile_append_of _ hdc, List.dropWhile_cons_of_neg (by simp [hdot])]
  unfold matchEmailAtL
  simp only [h1, h2, h3, h4, List.isEmpty_iff, hl, hd, if_neg, tldTryL_self ht]
  simp [hl, hd]

/-- `extractStandardEmail` succeeds on a clean address (the match is found
at position 0, under the `^` boundary). -/
theorem extractStandardEmailL_clean {l d t : List Char}
    (hl : l ≠ []) (hlc : ∀ c ∈ l, localB c = true)
    (hd : d ≠ []) (hdc : ∀ c ∈ d, domB c = true)
    (ht : tldsL.contains (t.map lowerAscii) = true) :
    extractStandardEmailL (l ++ '@' :: (d ++ '.' :: t)) =
      some (l ++ '@' :: (d ++ '.' :: t)) := by
  have hm := matchEmailAtL_clean hl hlc hd hdc ht
  obtain ⟨c0, l', rfl⟩ := List.exists_cons_of_ne_nil hl
  rw [List.cons_append] at hm ⊢
  unfold extractStandardEmailL extractStdGoL
  simp only [if_pos, hm]

/-- A global literal replace is the identity when the pattern's first
character does not occur. -/
theorem replaceAllF_id {p0 : Char} {ps rep : List Char} :
    ∀ (fuel : Nat) (s : List Char), (∀ c ∈ s, c ≠ p0) →
      replaceAllF (p0 :: ps) rep fuel s = s := by
  intro fuel
  induction fuel with
  | zero => intro s _; rfl
  | succ n ih =>
    intro s h
    cases s with
    | nil => rfl
    | cons c cs =>
      have hne : (p0 == c) = false := by
        simp only [beq_eq_false_iff_ne]
        exact fun he => (h c (by simp)) he.symm
      simp only [replaceAllF, isPrefixL, hne, Bool.false_and, Bool.and_false, if_neg,
        Bool.false_eq_true, not_false_eq_true]
      rw [ih cs (fun x hx => h x (by simp [hx]))]

/-- The case-insensitive alternation replace is the identity when no
alternative can start: every pattern opens with `[` or `(`, or is the
`@[at]` form whose second character is `[`. -/
theorem replaceAltsCIF_id {pats : List (List Char)} {rep : List Char}
    (hp : ∀ p ∈ pats,
      (∃ q, p = '[' :: q) ∨ (∃ q, p = '(' :: q) ∨ (∃ q, p = '@' :: '[' :: q)) :
    ∀ (fuel : Nat) (s : List Char),
      (∀ c ∈ s, lowerAscii c ≠ '[' ∧ lowerAscii c ≠ '(') →
      replaceAltsCIF pats rep fuel s = s := by
  intro fuel
  induction fuel with
  | zero => intro s _; rfl
  | succ n ih =>
    intro s h
    cases s with
    | nil => rfl
    | cons c cs =>
      have hfind : pats.find? (fun p => !p.isEmpty && ciPrefixL p (c :: cs)) = none := by
        rw [List.find?_eq_none]
        intro p hpmem
        rcases hp p hpmem with ⟨q, rfl⟩ | ⟨q, rfl⟩ | ⟨q, rfl⟩
        · simp only [ciPrefixL, Bool.and_eq_true, beq_iff_eq, List.isEmpty_cons]
          intro hcontra
          exact absurd hcontra.2.1.symm (h c (by simp)).1
        · simp only [ciPrefixL, Bool.and_eq_true, beq_iff_eq, List.isEmpty_cons]
          intro hcontra
          exact absurd hcontra.2.1.symm (h c (by simp)).2
        · cases cs with
          | nil => simp [ciPrefixL]
          | cons c2 cs2 =>
            simp only [ciPrefixL, Bool.and_eq_true, beq_iff_eq, List.isEmpty_cons]
            intro hcontra
            exact absurd hcontra.2.2.1.symm (h c2 (by simp)).1
      simp only [replaceAltsCIF, hfind]
      rw [ih cs (fun x hx => h x (by simp [hx]))]

/-- Step 1 of `cleanEmail` does not alter a string made of clean-address
characters. -/
theorem basicCleanL_id {s : List Char}
    (h : ∀ c ∈ s, localB c = true ∨ c = '@' ∨ c = '.') : basicCleanL s = s := by
  have hfacts := fun c hc => goodChar_facts (h c hc)
  have e1 : s.filter (fun c => !isJsWsB c) = s :=
    List.filter_eq_self.mpr (fun a ha => by simp [(hfacts a ha).1])
  have e2 : replaceAllL "&nbsp;".data [] s = s := by
    have : "&nbsp;".data = '&' :: "nbsp;".data := rfl
    rw [replaceAllL, this]
    exact replaceAllF_id _ _ (fun c hc => (hfacts c hc).2.1)
  have e3 : s.filter (fun c => !punctChars.contains c) = s :=
    List.filter_eq_self.mpr (fun a ha => by simpa using (hfacts a ha).2.2.1)
  have e4 : replaceAltsCI obfAtPats ['@'] s = s := by
    rw [replaceAltsCI]
    refine replaceAltsCIF_id ?_ _ _ (fun c hc => (hfacts c hc).2.2.2)
    intro p hp
    simp only [obfAtPats, List.map_cons, List.mem_cons] at hp
    rcases hp with rfl | rfl | rfl | rfl | hfalse
    · exact Or.inl ⟨"at]".data, by decide⟩
    · exact Or.inl ⟨"et]".data, by decide⟩
    · exact Or.inr (Or.inl ⟨"at)".data, by decide⟩)
    · exact Or.inr (Or.inr ⟨"at]".data, by decide⟩)
    · simp at hfalse
  have e5 : replaceAltsCI obfDotPats ['.'] s = s := by
    rw [replaceAltsCI]
    refine replaceAltsCIF_id ?_ _ _ (fun c hc => (hfacts c hc).2.2.2)
    intro p hp
    simp only [obfDotPats, List.map_cons, List.mem_cons] at hp
    rcases hp with rfl | rfl | rfl | rfl | hfalse
    · exact Or.inl ⟨"dot]".data, by decide⟩
    · exact Or.inl ⟨"punkt]".data, by decide⟩
    · exact Or.inr (Or.inl ⟨"dot)".data, by decide⟩)
    · exact Or.inr (Or.inl ⟨"punktum)".data, by decide⟩)
    · simp at hfalse
  unfold basicCleanL
  simp only [e1, e2, e3, e4, e5]

/-- Destructuring of a successful clean-address parse. -/
theorem cleanAddressParse_spec {s l d t : List Char}
    (h : cleanAddressParse s = some (l, d, t)) :
    s = l ++ '@' :: (d ++ '.' :: t) ∧ l ≠ [] ∧ (∀ c ∈ l, localB c = true) ∧
      d ≠ [] ∧ (∀ c ∈ d, domB c = true) ∧
      tldsL.contains (t.map lowerAscii) = true := by
  unfold cleanAddressParse at h
  split at h
  · next r2 heq =>
    split at h
    · next t' heq2 =>
      split at h
      · next hcond =>
        obtain ⟨hln, hdn, hcont⟩ := hcond
        injection h with h'
        have hl' : l = s.takeWhile localB := (congrArg Prod.fst h').symm
        have h'' := congrArg Prod.snd h'
        have hd' : d = r2.takeWhile domB := (congrArg Prod.fst h'').symm
        have ht' : t = t' := (congrArg Prod.snd h'').symm
        subst hl' hd' ht'
        refine ⟨?_, hln, ?_, hdn, ?_, hcont⟩
        · have hr2 : r2 = r2.takeWhile domB ++ '.' :: t := by
            conv_lhs => rw [← List.takeWhile_append_dropWhile domB r2]
            rw [heq2]
          conv_lhs => rw [← List.takeWhile_append_dropWhile localB s]
          rw [heq, ← hr2]
        · intro c hc; exact List.mem_takeWhile_imp hc
        · intro c hc; exact List.mem_takeWhile_imp hc
      · exact absurd h (by simp)
    · exact absurd h (by simp)
  · exact absurd h (by simp)

/-! ## Claim C2 (cleanEmail idempotence) -/

/-- C2, counterexample: `cleanEmail` is not idempotent.  On
"a@b.xyTelefon" the contamination-word rescue truncates to "a@b.xy", but
re-cleaning "a@b.xy" returns absent (its fake TLD survives no rescue step:
the string is too short for both the word scan and the 3-character-TLD
fallback), so `clean (clean x) ≠ clean x`. -/
theorem c2_cleanEmail_not_idempotent :
    cleanEmail "a@b.xyTelefon" = some "a@b.xy" ∧ cleanEmail "a@b.xy" = none := by
  constructor <;> decide

/-- C2, amended: `cleanEmail` is a fixed point on every already-clean
address `local@domain.tld` with an allowlisted TLD (the standard-extraction
path); idempotence fails only for rescue-path outputs. -/
theorem c2_cleanEmail_fixed_on_clean (e : String) (h : isCleanAddressB e = true) :
    cleanEmail e = some e := by
  unfold isCleanAddressB at h
  cases hp : cleanAddressParse e.data with
  | none => rw [hp] at h; simp at h
  | some v =>
    obtain ⟨l, d, t⟩ := v
    obtain ⟨hs, hl, hlc, hd, hdc, ht⟩ := cleanAddressParse_spec hp
    have hgood : ∀ c ∈ e.data, localB c = true ∨ c = '@' ∨ c = '.' := by
      rw [hs]
      intro c hc
      simp only [List.mem_append, List.mem_cons] at hc
      rcases hc with hc | hc | hc | hc | hc
      · exact Or.inl (hlc c hc)
      · exact Or.inr (Or.inl hc)
      · exact Or.inl (localB_of_domB (hdc c hc))
      · exact Or.inr (Or.inr hc)
      · refine Or.inl (localB_of_alnum ?_)
        have htm : t.map lowerAscii ∈ tldsL := by simpa using ht
        exact alnum_of_lower_alnum
          (tlds_chars_alnum _ htm _ (List.mem_map_of_mem _ hc))
    have hbc : basicCleanL e.data = e.data := basicCleanL_id hgood
    have hstd : extractStandardEmailL e.data = some e.data := by
      rw [hs]
      exact extractStandardEmailL_clean hl hlc hd hdc ht
    show (cleanEmailL e.data).map String.mk = some e
    unfold cleanEmailL
    simp only [hbc, hstd]
    rfl

/-- C2, witness for the amended theorem at the spec's own example address. -/
theorem c2_cleanEmail_fixed_on_clean_witness :
    cleanEmail "john.doe@example.no" = some "john.doe@example.no" :=
  c2_cleanEmail_fixed_on_clean "john.doe@example.no" (by decide)

/-! ## Claim C1 (emissions never exceed maxJobs) -/

/-- C1: the budget bound fails under interleaving.  With `maxJobs = 2`,
listing page 0 (one job link, pagination) enqueues one DETAIL request and
listing page 1; if page 1 is handled before that DETAIL request completes,
its budget read still sees `scraped = 0` and enqueues two more DETAIL
requests; the DETAIL handler itself never re-checks the budget, so all
three emit: 3 > 2 records on a completed crawl (empty frontier).  This
evaluates the crawl model at the failing schedule. -/
theorem c1_budget_overshoot :
    (crawlRun c1Site 2 c1Sched crawlInit).emitted = 3 ∧
      (crawlRun c1Site 2 c1Sched crawlInit).queue = [] ∧ 2 < 3 := by
  refine ⟨by decide, by decide, by decide⟩

/-! ## Claim C3 (three structured contact blocks) -/

/-- A block with its own phone label never consults the page-global phone
candidates: its extraction coincides with extraction under an empty global
list. -/
theorem extractContact_local {u : UlE} (hph : u.items.filter liPhoneLabel ≠ [])
    (phones : List String) (i : Nat) :
    extractContact phones u i = extractContact [] u i := by
  unfold extractContact
  simp [hph]

/-- C3: on a page whose `ul`s are exactly three well-formed contact blocks
(each with one marker `li`, its own phone-label `li` and its own E-post
`li`), the resolver returns exactly three contacts, in block order, each
computed from its own block alone (the page-global phone list is not
consulted). -/
theorem c3_three_blocks (page : DetailPage) (b1 b2 b3 : UlE)
    (hu : page.uls = [b1, b2, b3]) (i1 i2 i3 : Nat)
    (hk1 : kontaktIdxs b1 = [i1]) (hk2 : kontaktIdxs b2 = [i2])
    (hk3 : kontaktIdxs b3 = [i3])
    (hp1 : b1.items.filter liPhoneLabel ≠ [])
    (hp2 : b2.items.filter liPhoneLabel ≠ [])
    (hp3 : b3.items.filter liPhoneLabel ≠ [])
    (he1 : b1.items.filter (fun li => containsS li.text "E-post") ≠ [])
    (he2 : b2.items.filter (fun li => containsS li.text "E-post") ≠ [])
    (he3 : b3.items.filter (fun li => containsS li.text "E-post") ≠ []) :
    contactPersons page =
      [extractContact [] b1 i1, extractContact [] b2 i2, extractContact [] b3 i3] := by
  have hkp : kontaktPairs page.uls = [(b1, i1), (b2, i2), (b3, i3)] := by
    rw [hu]
    simp [kontaktPairs, ulKontaktPairs, hk1, hk2, hk3]
  unfold contactPersons
  rw [hkp]
  simp only [ne_eq, reduceCtorEq, not_false_eq_true, if_true, List.cons_ne_self]
  simp [structuredContacts, hkp, extractContact_local hp1, extractContact_local hp2,
    extractContact_local hp3]

/-- C3, witness: the three-block sample page. -/
theorem c3_three_blocks_witness :
    contactPersons c3Page =
      [extractContact [] c3Block1 0, extractContact [] c3Block2 0,
        extractContact [] c3Block3 0] :=
  c3_three_blocks c3Page c3Block1 c3Block2 c3Block3 (by decide) 0 0 0
    (by decide) (by decide) (by decide) (by decide) (by decide) (by decide)
    (by decide) (by decide) (by decide)

/-! ## Claim C4 (foreign-host requests) -/

/-- C4 (amended): only the LIST handler rejects non-finn.no URLs (by a
substring test on the whole URL); the default handler only logs; but the
DETAIL handler performs no host check at all, and a foreign-host DETAIL
request is processed normally and can emit a record. -/
theorem c4_host_check_only_list :
    (∀ (maxJobs scraped : Nat) (p : ListPage), containsS p.url "finn.no" = false →
        listHandler maxJobs scraped p = ⟨DetailEnqueue.noneE, ListEnqueue.noneE⟩) ∧
      (∀ url, defaultHandlerOutput url = ([], none)) ∧
      (∃ env : DetailEnv, containsS env.page.url "finn.no" = false ∧
        ((detailHandler env 0).2).isSome = true) := by
  refine ⟨?_, ?_, ?_⟩
  · intro mj s p h
    unfold listHandler
    simp [h]
  · intro url
    rfl
  · exact ⟨⟨c4EvilPage, []⟩, by decide, by decide⟩

/-- C4, counterexample: a DETAIL request whose host is not finn.no is not
rejected — it produces a record (contradicting "a foreign-host DETAIL
request never produces a record"). -/
theorem c4_foreign_detail_emits :
    containsS c4EvilPage.url "finn.no" = false ∧
      (detailHandler ⟨c4EvilPage, []⟩ 0).2 = some (buildJobData c4EvilPage) ∧
      (detailHandler ⟨c4EvilPage, []⟩ 0).1 = 1 := by
  refine ⟨by decide, rfl, rfl⟩

/-- C4, witness: a foreign LIST request is indeed rejected outright. -/
theorem c4_host_check_only_list_witness :
    listHandler 100 0
        ⟨"https://evil.example.com/list", [], [], [], [], [], []⟩ =
      ⟨DetailEnqueue.noneE, ListEnqueue.noneE⟩ :=
  c4_host_check_only_list.1 100 0 _ (by decide)

/-! ## Claim C5 (title-extraction failure) -/

/-- C5 (amended): failure to resolve a title is not fatal — nothing in the
DETAIL handler throws for a missing field, so absent an external exception
the record is always emitted, with the title falling back from the heading
selectors to the first `h1` and finally to the empty string; other missing
fields likewise merely leave their field absent or empty. -/
theorem c5_title_failure_not_fatal (p : DetailPage) (scraped : Nat) :
    detailHandler ⟨p, []⟩ scraped = (scraped + 1, some (buildJobData p)) ∧
      (buildJobData p).title =
        (if trimS p.mainTitleSel ≠ "" then trimS p.mainTitleSel else trimS p.h1Text) := by
  exact ⟨rfl, rfl⟩

/-- C5, counterexample: a page on which title extraction fails (both title
queries empty) still emits a record — with an empty title — contradicting
"no record is emitted for that request". -/
theorem c5_no_title_still_emits :
    trimS blankDetailPage.mainTitleSel = "" ∧ trimS blankDetailPage.h1Text = "" ∧
      (detailHandler ⟨blankDetailPage, []⟩ 0).2 = some (buildJobData blankDetailPage) ∧
      (buildJobData blankDetailPage).title = "" := by
  refine ⟨rfl, rfl, rfl, rfl⟩

/-! ## Claim C6 (no empty-named ContactPerson) -/

/-- C6 (amended): structured contacts are pushed unguarded — whenever any
marker `li` exists, the emitted record's contact list is exactly the
per-marker extraction, with no filtering on (possibly empty) names. -/
theorem c6_contacts_pushed_unguarded (p : DetailPage) (h : kontaktPairs p.uls ≠ []) :
    ∃ jd, (detailHandler ⟨p, []⟩ 0).2 = some jd ∧
      jd.contactPersons = some ((kontaktPairs p.uls).map
        (fun pr => extractContact (cleanedPhonesS p.bodyText) pr.1 pr.2)) := by
  refine ⟨buildJobData p, rfl, ?_⟩
  unfold buildJobData contactPersons structuredContacts
  simp [h]

/-- C6, counterexample: a block whose marker `li` consists of the bare
label yields a ContactPerson with empty name inside the emitted record,
contradicting "never emitted with an empty name". -/
theorem c6_empty_name_emitted :
    (detailHandler ⟨c6Page, []⟩ 0).2 = some (buildJobData c6Page) ∧
      (buildJobData c6Page).contactPersons =
        some [{ name := "", role := none, phoneNumber := none, email := none }] := by
  refine ⟨rfl, by decide⟩

/-- C6, witness: the amended theorem applied at the bare-label page. -/
theorem c6_contacts_pushed_unguarded_witness :
    ∃ jd, (detailHandler ⟨c6Page, []⟩ 0).2 = some jd ∧
      jd.contactPersons = some ((kontaktPairs c6Page.uls).map
        (fun pr => extractContact (cleanedPhonesS c6Page.bodyText) pr.1 pr.2)) :=
  c6_contacts_pushed_unguarded c6Page (by decide)

/-! ## Claim C7 (employment-type vocabulary matching) -/

/-- `find?` characterisation: the found element satisfies the predicate and
every earlier element fails it. -/
theorem find?_decomp {α : Type} (p : α → Bool) :
    ∀ (L : List α) (x : α), L.find? p = some x →
      p x = true ∧ ∃ pre suf, L = pre ++ x :: suf ∧ ∀ y ∈ pre, p y = false := by
  intro L
  induction L with
  | nil => intro x h; simp at h
  | cons a as ih =>
    intro x h
    cases hpa : p a with
    | true =>
      rw [List.find?_cons_of_pos _ hpa] at h
      injection h with h'
      subst h'
      exact ⟨hpa, [], as, rfl, by simp⟩
    | false =>
      rw [List.find?_cons_of_neg _ (by simp [hpa])] at h
      obtain ⟨hx, pre, suf, hL, hpre⟩ := ih x h
      refine ⟨hx, a :: pre, suf, by rw [hL]; rfl, ?_⟩
      intro y hy
      rcases List.mem_cons.mp hy with rfl | hy'
      · exact hpa
      · exact hpre y hy'

/-- C7 (amended): the vocabulary labels are matched as plain substrings of
the page text (not whole words), and when several occur the first one in
vocabulary order wins. -/
theorem c7_first_substring_label_wins (text : String) (l : String)
    (h : extractEmploymentType text none = some l) :
    containsS text l = true ∧
      ∃ pre suf, employmentTypeLabels = pre ++ l :: suf ∧
        ∀ l2 ∈ pre, containsS text l2 = false := by
  unfold extractEmploymentType at h
  cases hf : employmentTypeLabels.find? (fun lab => containsS text lab) with
  | none => rw [hf] at h; simp at h
  | some l0 =>
    rw [hf] at h
    injection h with h'
    subst h'
    exact find?_decomp _ _ _ hf

/-- C7, counterexample: "Fast" occurs in "Fastlege" only inside a larger
word — there is no whole-word occurrence — yet the extractor matches it,
contradicting "a label occurring only inside a larger word does not match". -/
theorem c7_substring_not_whole_word :
    extractEmploymentType "Fastlege" none = some "Fast" ∧
      specWholeWordOccursS "Fastlege" "Fast" = false := by
  exact ⟨by decide, by decide⟩

/-- C7, witness for the amended theorem. -/
theorem c7_first_substring_label_wins_witness :
    containsS "Heltid stilling" "Heltid" = true ∧
      ∃ pre suf, employmentTypeLabels = pre ++ "Heltid" :: suf ∧
        ∀ l2 ∈ pre, containsS "Heltid stilling" l2 = false :=
  c7_first_substring_label_wins "Heltid stilling" "Heltid" (by decide)

/-! ## Claim C8 (selector-chain equivalence) -/

/-- C8: when the primary job-link selector matches nothing and the first
fallback matches five links, the whole LIST-handler output — the detail
URLs enqueued (set, order, cap) and the pagination decision — equals the
output on the page where the fallback's links are the primary selector's. -/
theorem c8_fallback_chain_equiv (maxJobs scraped : Nat) (p : ListPage)
    (h0 : p.adsUnitLinks = []) (h5 : p.fCardLinks.length = 5) :
    listHandler maxJobs scraped p =
      listHandler maxJobs scraped { p with adsUnitLinks := p.fCardLinks } := by
  have hne : p.fCardLinks ≠ [] := by
    intro hnil
    rw [hnil] at h5
    simp at h5
  obtain ⟨url, a1, a2, a3, a4, a5, a6⟩ := p
  simp only at h0 hne ⊢
  subst h0
  unfold listHandler jobLinksChain paginationChain
  simp [hne]

/-- C8, witness: the five-link sample page. -/
theorem c8_fallback_chain_equiv_witness :
    listHandler 100 0 c8Page =
      listHandler 100 0 { c8Page with adsUnitLinks := c8Page.fCardLinks } :=
  c8_fallback_chain_equiv 100 0 c8Page (by decide) (by decide)

/-! ## Claim C9 (atomic emission) -/

/-- A successful `try`-block run returns exactly the record built from the
page. -/
theorem detailBody_ok_eq {env : DetailEnv} {jd : JobData}
    (h : detailBody env = Except.ok jd) : jd = buildJobData env.page := by
  unfold detailBody stepE at h
  by_cases h0 : (0 : Nat) ∈ env.faults <;> by_cases h1 : (1 : Nat) ∈ env.faults <;>
    simp [h0, h1] at h
  first
  | exact h
  | exact h.symm

/-- C9: emission is atomic with respect to failure — if anything raises
before or at the hand-off, nothing is persisted and the counter is
unchanged; the counter is incremented exactly when a record is handed off,
and that record is the fully built one. -/
theorem c9_emission_atomic (env : DetailEnv) (scraped : Nat) :
    (detailBody env = Except.error () → detailHandler env scraped = (scraped, none)) ∧
      (∀ jd, detailBody env = Except.ok jd →
        detailHandler env scraped = (scraped + 1, some jd) ∧ jd = buildJobData env.page) ∧
      ((detailHandler env scraped).2 = none ↔ (detailHandler env scraped).1 = scraped) := by
  unfold detailHandler
  cases hb : detailBody env with
  | error e =>
    cases e
    refine ⟨fun _ => rfl, ?_, by simp⟩
    intro jd hjd
    exact absurd hjd (by simp)
  | ok jd0 =>
    refine ⟨fun hc => absurd hc (by simp), ?_, by simp⟩
    intro jd hjd
    injection hjd with h'
    subst h'
    exact ⟨rfl, detailBody_ok_eq hb⟩

/-- C9, witness: a faulted run leaves the counter alone and persists
nothing; a clean run increments it and persists the built record. -/
theorem c9_emission_atomic_witness :
    detailHandler ⟨blankDetailPage, [0]⟩ 5 = (5, none) ∧
      detailHandler ⟨blankDetailPage, []⟩ 5 = (5 + 1, some (buildJobData blankDetailPage)) := by
  constructor
  · exact (c9_emission_atomic ⟨blankDetailPage, [0]⟩ 5).1 rfl
  · exact ((c9_emission_atomic ⟨blankDetailPage, []⟩ 5).2.1 (buildJobData blankDetailPage) rfl).1

/-! ## Claim C10 (legacy contact inherits the joined global phone value) -/

/-- C10: when the legacy single-contact pattern applies and no list around
the contact carries a phone label, the contact's `phoneNumber` is the
page-global value: the first at most 3 distinct cleaned phone matches of
the whole page joined with " / ". -/
theorem c10_legacy_contact_global_phone (p : DetailPage)
    (hstruct : kontaktPairs p.uls = [])
    (hleg : (p.uls.flatMap (·.items)).any (fun li => containsS li.text "Kontaktperson") = true)
    (hph : (p.uls.filter (fun u => u.items.any (fun li => containsS li.text "Kontaktperson"))).flatMap
        (fun u => u.items.filter liPhoneLabel) = [])
    (hmat : phoneLoopL p.bodyText.data ≠ []) :
    contactPersons p = [legacyContact p] ∧
      (legacyContact p).phoneNumber =
        some (String.intercalate " / " ((dedupKeepFirst (cleanedPhonesS p.bodyText)).take 3)) := by
  constructor
  · unfold contactPersons
    simp [hstruct, hleg]
  · unfold legacyContact globalPhoneNumberS
    simp [hph, hmat]

/-- C10, witness: on the sample page the single emitted contact's
`phoneNumber` is one string holding three distinct phone numbers. -/
theorem c10_legacy_contact_global_phone_witness :
    contactPersons c10Page = [legacyContact c10Page] ∧
      (legacyContact c10Page).phoneNumber = some "12345678 / 23456789 / 34567890" := by
  have h := c10_legacy_contact_global_phone c10Page (by decide) (by decide) (by decide) (by decide)
  exact ⟨h.1, h.2.trans (by decide)⟩

end FinnScraper
